import Mathlib

/-!
Verification of the SovereignInterchainRelayers repository: a shallow
embedding, in Lean 4, of the duty-agent sidecar (agents/duty-agent) and the
x/duty transaction message types (SovereignChain/x/duty/types/msgs.go),
together with a spec-level model of the Duty Registry, and theorems settling
the specification's claims about them.

Conventions of the embedding:
* Go byte slices (`[]byte`, `sdk.ValAddress`, `sdk.AccAddress`) are `List Nat`.
* `sdk.ValAddress.Empty()` / `sdk.AccAddress.Empty()` hold exactly when the
  byte slice has length zero, i.e. the list is `[]`.
* A Go function returning `error` becomes a function returning
  `Option String` (`none` = nil error) or `Except String _`.
* Go maps with string keys are association lists `List (String × _)` whose
  key lists are duplicate-free.
-/

namespace SovereignInterchain

/-- Bytes of a `sdk.ValAddress` (a Go byte slice). -/
abbrev ValAddress := List Nat

/-- Bytes of a `sdk.AccAddress` (a Go byte slice). -/
abbrev AccAddress := List Nat

/-- Go's `sdk.AccAddress(valAddr)` conversion: a byte-slice cast, the bytes
are kept as they are. -/
def accAddressOfVal (v : ValAddress) : AccAddress := v

/-- `Route` from the duty module: an ordered pair of chain ids
(origin chain id, destination chain id). -/
structure Route where
  Origin : String
  Destination : String
deriving DecidableEq, Repr

/-- `MsgRegisterSidecars` from x/duty/types/msgs.go: registers relayer and
validator public keys for a validator. -/
structure MsgRegisterSidecars where
  ValAddr : ValAddress
  RelayerPubKey : List Nat
  ValidatorPubKey : List Nat
deriving DecidableEq, Repr

/-- `MsgRegisterSidecars.ValidateBasic`: errors iff the validator address is
empty, otherwise nil. -/
def MsgRegisterSidecars.ValidateBasic (msg : MsgRegisterSidecars) : Option String :=
  if msg.ValAddr = [] then some "validator address cannot be empty" else none

/-- `MsgRegisterSidecars.GetSigners`: the single signer is the account
address cast of the message's validator address. -/
def MsgRegisterSidecars.GetSigners (msg : MsgRegisterSidecars) : List AccAddress :=
  [accAddressOfVal msg.ValAddr]

/-- `MsgHeartbeat` from x/duty/types/msgs.go: a signed liveness attestation
carrying the JSON serialization of observed origin-chain heights. -/
structure MsgHeartbeat where
  ValAddr : ValAddress
  OriginHeightsJSON : String
  Sig : List Nat
deriving DecidableEq, Repr

/-- `NewMsgHeartbeat` constructor from msgs.go. -/
def NewMsgHeartbeat (valAddr : ValAddress) (originHeightsJSON : String)
    (sig : List Nat) : MsgHeartbeat :=
  { ValAddr := valAddr, OriginHeightsJSON := originHeightsJSON, Sig := sig }

/-- `MsgHeartbeat.ValidateBasic`: errors iff the validator address is empty. -/
def MsgHeartbeat.ValidateBasic (msg : MsgHeartbeat) : Option String :=
  if msg.ValAddr = [] then some "validator address cannot be empty" else none

/-- `MsgHeartbeat.GetSigners`: the single signer is the account address cast
of the message's validator address. -/
def MsgHeartbeat.GetSigners (msg : MsgHeartbeat) : List AccAddress :=
  [accAddressOfVal msg.ValAddr]

/-- `MsgReportMissed` from x/duty/types/msgs.go: a proof-backed claim that a
duty's deadline passed without fulfillment. -/
structure MsgReportMissed where
  Route : Route
  MsgID : Nat
  AssignedVal : ValAddress
  OriginProof : List Nat
  DestNonInclusionProof : List Nat
  Signer : AccAddress
deriving DecidableEq, Repr

/-- `MsgReportMissed.ValidateBasic`: errors iff the assigned validator
address or the signer address is empty; the assigned validator is checked
first. -/
def MsgReportMissed.ValidateBasic (msg : MsgReportMissed) : Option String :=
  if msg.AssignedVal = [] then some "assigned validator address cannot be empty"
  else if msg.Signer = [] then some "signer address cannot be empty"
  else none

/-- `MsgReportMissed.GetSigners`: the single signer is the reporting
account, the message's `Signer` field. -/
def MsgReportMissed.GetSigners (msg : MsgReportMissed) : List AccAddress :=
  [msg.Signer]

/-- `MsgReportInvalid` from x/duty/types/msgs.go: a proof-backed claim that
an attempted relay failed or was malformed on the destination chain. -/
structure MsgReportInvalid where
  Route : Route
  MsgID : Nat
  AssignedVal : ValAddress
  DestFailureProof : List Nat
  Signer : AccAddress
deriving DecidableEq, Repr

/-- `MsgReportInvalid.ValidateBasic`: errors iff the assigned validator
address or the signer address is empty; the assigned validator is checked
first. -/
def MsgReportInvalid.ValidateBasic (msg : MsgReportInvalid) : Option String :=
  if msg.AssignedVal = [] then some "assigned validator address cannot be empty"
  else if msg.Signer = [] then some "signer address cannot be empty"
  else none

/-- `MsgReportInvalid.GetSigners`: the single signer is the reporting
account, the message's `Signer` field. -/
def MsgReportInvalid.GetSigners (msg : MsgReportInvalid) : List AccAddress :=
  [msg.Signer]

/-- C4: For every one of the four transaction message types, ValidateBasic
returns an error if and only if a required address field is empty: the
validator address for MsgRegisterSidecars and MsgHeartbeat, and the
assigned-validator address or the signer address for MsgReportMissed and
MsgReportInvalid; otherwise it returns nil (`none`) and the message passes
basic validation. -/
theorem validateBasic_err_iff_empty_address :
    (∀ m : MsgRegisterSidecars, m.ValidateBasic ≠ none ↔ m.ValAddr = []) ∧
    (∀ m : MsgHeartbeat, m.ValidateBasic ≠ none ↔ m.ValAddr = []) ∧
    (∀ m : MsgReportMissed,
      m.ValidateBasic ≠ none ↔ (m.AssignedVal = [] ∨ m.Signer = [])) ∧
    (∀ m : MsgReportInvalid,
      m.ValidateBasic ≠ none ↔ (m.AssignedVal = [] ∨ m.Signer = [])) := by
  refine ⟨fun m => ?_, fun m => ?_, fun m => ?_, fun m => ?_⟩ <;>
    simp only [MsgRegisterSidecars.ValidateBasic, MsgHeartbeat.ValidateBasic,
      MsgReportMissed.ValidateBasic, MsgReportInvalid.ValidateBasic] <;>
    split_ifs <;> simp_all

/-- C5: For MsgRegisterSidecars and MsgHeartbeat, GetSigners returns exactly
one signer, the account address derived from the message's own validator
address; for MsgReportMissed and MsgReportInvalid, GetSigners returns
exactly one signer, the message's Signer field, independent of the assigned
validator (replacing the assigned validator does not change the signers). -/
theorem getSigners_characterization :
    (∀ m : MsgRegisterSidecars,
      m.GetSigners = [accAddressOfVal m.ValAddr] ∧ m.GetSigners.length = 1) ∧
    (∀ m : MsgHeartbeat,
      m.GetSigners = [accAddressOfVal m.ValAddr] ∧ m.GetSigners.length = 1) ∧
    (∀ m : MsgReportMissed,
      m.GetSigners = [m.Signer] ∧ m.GetSigners.length = 1 ∧
        ∀ v : ValAddress, ({ m with AssignedVal := v } : MsgReportMissed).GetSigners
          = m.GetSigners) ∧
    (∀ m : MsgReportInvalid,
      m.GetSigners = [m.Signer] ∧ m.GetSigners.length = 1 ∧
        ∀ v : ValAddress, ({ m with AssignedVal := v } : MsgReportInvalid).GetSigners
          = m.GetSigners) := by
  refine ⟨fun m => ⟨rfl, rfl⟩, fun m => ⟨rfl, rfl⟩,
    fun m => ⟨rfl, rfl, fun v => rfl⟩, fun m => ⟨rfl, rfl, fun v => rfl⟩⟩

/-- Witness for C4 at concrete messages: an empty validator address is
rejected, and an empty signer is rejected even with a non-empty assigned
validator. -/
theorem validateBasic_err_iff_empty_address_witness :
    MsgRegisterSidecars.ValidateBasic
      { ValAddr := [], RelayerPubKey := [1], ValidatorPubKey := [2] } ≠ none ∧
    MsgReportMissed.ValidateBasic
      { Route := { Origin := "a", Destination := "b" }, MsgID := 1,
        AssignedVal := [1], OriginProof := [3], DestNonInclusionProof := [4],
        Signer := [] } ≠ none :=
  ⟨(validateBasic_err_iff_empty_address.1 _).mpr rfl,
   (validateBasic_err_iff_empty_address.2.2.1 _).mpr (Or.inr rfl)⟩

/-- Witness for C5 at a concrete heartbeat message. -/
theorem getSigners_characterization_witness :
    MsgHeartbeat.GetSigners
      { ValAddr := [5], OriginHeightsJSON := "x", Sig := [6] }
      = [accAddressOfVal [5]] :=
  (getSigners_characterization.2.1
    { ValAddr := [5], OriginHeightsJSON := "x", Sig := [6] }).1

/-- C9: ValidateBasic inspects only address fields and no other field —
replacing every non-address field leaves its result unchanged for all four
message types — so a MsgRegisterSidecars with empty public-key bytes, a
MsgHeartbeat with an empty originHeightsJSON string and empty signature,
and a MsgReportMissed or MsgReportInvalid with empty proof bytes and a
zero-valued Route all pass basic validation whenever their address fields
are non-empty. -/
theorem validateBasic_ignores_non_address_fields
    (va : ValAddress) (signer : AccAddress)
    (hva : va ≠ []) (hsigner : signer ≠ []) :
    (∀ (m : MsgRegisterSidecars) (pk vk : List Nat),
      ({ m with
          RelayerPubKey := pk
          ValidatorPubKey := vk } : MsgRegisterSidecars).ValidateBasic
        = m.ValidateBasic) ∧
    (∀ (m : MsgHeartbeat) (oh : String) (sg : List Nat),
      ({ m with OriginHeightsJSON := oh, Sig := sg } : MsgHeartbeat).ValidateBasic
        = m.ValidateBasic) ∧
    (∀ (m : MsgReportMissed) (r : Route) (mid : Nat) (p1 p2 : List Nat),
      ({ m with
          Route := r
          MsgID := mid
          OriginProof := p1
          DestNonInclusionProof := p2 } : MsgReportMissed).ValidateBasic
        = m.ValidateBasic) ∧
    (∀ (m : MsgReportInvalid) (r : Route) (mid : Nat) (p : List Nat),
      ({ m with
          Route := r
          MsgID := mid
          DestFailureProof := p } : MsgReportInvalid).ValidateBasic
        = m.ValidateBasic) ∧
    (MsgRegisterSidecars.ValidateBasic
      { ValAddr := va, RelayerPubKey := [], ValidatorPubKey := [] } = none) ∧
    (MsgHeartbeat.ValidateBasic
      { ValAddr := va, OriginHeightsJSON := "", Sig := [] } = none) ∧
    (MsgReportMissed.ValidateBasic
      { Route := { Origin := "", Destination := "" }, MsgID := 0,
        AssignedVal := va, OriginProof := [], DestNonInclusionProof := [],
        Signer := signer } = none) ∧
    (MsgReportInvalid.ValidateBasic
      { Route := { Origin := "", Destination := "" }, MsgID := 0,
        AssignedVal := va, DestFailureProof := [],
        Signer := signer } = none) := by
  refine ⟨fun m pk vk => rfl, fun m oh sg => rfl, fun m r mid p1 p2 => rfl,
    fun m r mid p => rfl, ?_, ?_, ?_, ?_⟩ <;>
    simp [MsgRegisterSidecars.ValidateBasic, MsgHeartbeat.ValidateBasic,
      MsgReportMissed.ValidateBasic, MsgReportInvalid.ValidateBasic,
      hva, hsigner]

/-- Witness for C9 at concrete non-empty addresses. -/
theorem validateBasic_ignores_non_address_fields_witness :
    (MsgRegisterSidecars.ValidateBasic
      { ValAddr := [1], RelayerPubKey := [], ValidatorPubKey := [] } = none) ∧
    (MsgHeartbeat.ValidateBasic
      { ValAddr := [1], OriginHeightsJSON := "", Sig := [] } = none) ∧
    (MsgReportMissed.ValidateBasic
      { Route := { Origin := "", Destination := "" }, MsgID := 0,
        AssignedVal := [1], OriginProof := [], DestNonInclusionProof := [],
        Signer := [2] } = none) ∧
    (MsgReportInvalid.ValidateBasic
      { Route := { Origin := "", Destination := "" }, MsgID := 0,
        AssignedVal := [1], DestFailureProof := [],
        Signer := [2] } = none) :=
  (validateBasic_ignores_non_address_fields [1] [2]
    (by decide) (by decide)).2.2.2.2

/-- Duty status enumeration from the duty data model:
`Pending` is the only non-terminal status. -/
inductive DutyStatus where
  | Pending
  | Fulfilled
  | Missed
  | Invalid
deriving DecidableEq, Repr

/-- `Duty`: one outstanding relay obligation. -/
structure Duty where
  route : Route
  messageId : Nat
  assignedValidator : ValAddress
  createdHeight : Nat
  deadlineHeight : Nat
  status : DutyStatus
deriving DecidableEq, Repr

/-- A duty is keyed by its (route, messageId) pair. -/
abbrev DutyKey := Route × Nat

/-- The (route, messageId) key of a duty. -/
def Duty.key (d : Duty) : DutyKey := (d.route, d.messageId)

/-- Modelled from the spec: the Duty Registry state (section 4.1) — the
map from (route, messageId) to the stored Duty. The repository contains no
keeper/store implementation under src/, only the message types; the
registry contract is taken from the spec's words. -/
def Registry := DutyKey → Option Duty

/-- Modelled from the spec: `get(route, messageId) -> Duty?`; `get` on an
unknown key signals NotFound (`none`). -/
def Registry.get (reg : Registry) (r : Route) (messageId : Nat) : Option Duty :=
  reg (r, messageId)

/-- Modelled from the spec: `upsert(duty)` — stores the duty at its
(route, messageId) key, except that any transition whose source status is
already terminal (non-`Pending`) is rejected as a no-op, never silently
overwritten; no operation may resurrect a terminal-status duty into
`Pending`. -/
def Registry.upsert (reg : Registry) (d : Duty) : Registry :=
  match reg d.key with
  | none => fun k => if k = d.key then some d else reg k
  | some old =>
      if old.status = DutyStatus.Pending then
        fun k => if k = d.key then some d else reg k
      else
        reg

/-- A sequence of mutating operations applied to the Duty Registry: the
registry's only mutator is `upsert` (`get` and `listByValidator` are
read-only), so a sequence of operations is a list of upserted duties. -/
def Registry.applyOps (reg : Registry) (ops : List Duty) : Registry :=
  ops.foldl Registry.upsert reg

theorem upsert_preserves_terminal (reg : Registry) (u : Duty) (k : DutyKey)
    (d : Duty) (hget : reg k = some d) (hterm : d.status ≠ DutyStatus.Pending) :
    Registry.upsert reg u k = some d := by
  unfold Registry.upsert
  by_cases hk : u.key = k
  · rw [hk, hget]
    simp [hterm, hget]
  · have hk' : ¬ k = u.key := fun h => hk h.symm
    cases hreg : reg u.key with
    | none =>
        show (if k = u.key then some u else reg k) = some d
        rw [if_neg hk', hget]
    | some old =>
        show (if old.status = DutyStatus.Pending then
          (fun k => if k = u.key then some u else reg k) else reg) k = some d
        by_cases hold : old.status = DutyStatus.Pending
        · rw [if_pos hold]
          show (if k = u.key then some u else reg k) = some d
          rw [if_neg hk', hget]
        · rw [if_neg hold]
          exact hget

theorem applyOps_preserves_terminal (ops : List Duty) (reg : Registry)
    (k : DutyKey) (d : Duty) (hget : reg k = some d)
    (hterm : d.status ≠ DutyStatus.Pending) :
    Registry.applyOps reg ops k = some d := by
  induction ops generalizing reg with
  | nil => exact hget
  | cons u rest ih =>
      exact ih (Registry.upsert reg u)
        (upsert_preserves_terminal reg u k d hget hterm)

/-- C1: once a Duty's status leaves `Pending` it never returns to `Pending`
and never changes again — under any further sequence of registry
operations the stored duty at that key is unchanged; an attempted upsert
whose source status is already terminal is rejected as a no-op on the
whole registry; and any single upsert that changes the status stored at a
key must start from `Pending`. -/
theorem duty_registry_terminal_monotone
    (reg : Registry) (ops : List Duty) (k : DutyKey) (d : Duty)
    (hget : reg k = some d) (hterm : d.status ≠ DutyStatus.Pending) :
    Registry.applyOps reg ops k = some d ∧
    (∀ u : Duty, u.key = k → Registry.upsert reg u = reg) ∧
    (∀ (reg' : Registry) (u dOld dNew : Duty),
      reg' k = some dOld → Registry.upsert reg' u k = some dNew →
      dNew.status ≠ dOld.status → dOld.status = DutyStatus.Pending) := by
  refine ⟨applyOps_preserves_terminal ops reg k d hget hterm, ?_, ?_⟩
  · intro u hu
    unfold Registry.upsert
    rw [hu, hget]
    simp [hterm]
  · intro reg' u dOld dNew hOld hNew hne
    by_contra hp
    rw [upsert_preserves_terminal reg' u k dOld hOld hp] at hNew
    exact hne (by injection hNew with h; rw [h])

/-- Witness for C1: a registry holding a `Fulfilled` duty at key
(Sovereign→Light, 1); an attempted resurrection to `Pending` and an
unrelated insertion leave the stored duty unchanged. -/
theorem duty_registry_terminal_monotone_witness :
    Registry.applyOps
      (fun k => if k = ({ Origin := "Sovereign", Destination := "Light" }, 1) then
        some { route := { Origin := "Sovereign", Destination := "Light" },
               messageId := 1, assignedValidator := [1], createdHeight := 100,
               deadlineHeight := 150, status := DutyStatus.Fulfilled }
        else none)
      [ { route := { Origin := "Sovereign", Destination := "Light" },
          messageId := 1, assignedValidator := [2], createdHeight := 200,
          deadlineHeight := 250, status := DutyStatus.Pending },
        { route := { Origin := "Sovereign", Destination := "Light" },
          messageId := 2, assignedValidator := [3], createdHeight := 300,
          deadlineHeight := 350, status := DutyStatus.Pending } ]
      ({ Origin := "Sovereign", Destination := "Light" }, 1)
    = some { route := { Origin := "Sovereign", Destination := "Light" },
             messageId := 1, assignedValidator := [1], createdHeight := 100,
             deadlineHeight := 150, status := DutyStatus.Fulfilled } :=
  (duty_registry_terminal_monotone _ _ _ _ rfl (by decide)).1

/-- Agent configuration from agents/duty-agent (struct `Config`).
Durations are nanoseconds, as in Go's `time.Duration`. -/
structure Config where
  SovereignRPC : String
  SovereignGRPC : String
  SovereignChainID : String
  ValAddr : String
  RelayerKeyPath : String
  RelayerBin : String
  HeartbeatPeriod : Nat
deriving DecidableEq, Repr

/-- Go's `30 * time.Second` in nanoseconds. -/
def thirtySeconds : Nat := 30000000000

/-- `readEnvConfig` from the duty agent: reads the seven environment
variables. `getenv` models Go's `os.Getenv` (returns `""` for an absent
variable); `parseDuration` models Go's `time.ParseDuration` (`none` = parse
error). On a parse error for HEARTBEAT_PERIOD the agent logs and defaults
the period to 30 seconds. -/
def readEnvConfig (getenv : String → String)
    (parseDuration : String → Option Nat) : Config :=
  let periodStr := getenv "HEARTBEAT_PERIOD"
  let period :=
    match parseDuration periodStr with
    | some p => p
    | none => thirtySeconds
  { SovereignRPC := getenv "SOVEREIGN_RPC",
    SovereignGRPC := getenv "SOVEREIGN_GRPC",
    SovereignChainID := getenv "SOVEREIGN_CHAIN_ID",
    ValAddr := getenv "VAL_ADDR",
    RelayerKeyPath := getenv "RELAYER_KEY_PATH",
    RelayerBin := getenv "RELAYER_BIN",
    HeartbeatPeriod := period }

/-- `validateConfig` from the duty agent: the first empty required string
setting yields an error; the heartbeat period is not checked. -/
def validateConfig (c : Config) : Option String :=
  if c.SovereignRPC = "" then some "SOVEREIGN_RPC must be set"
  else if c.SovereignGRPC = "" then some "SOVEREIGN_GRPC must be set"
  else if c.SovereignChainID = "" then some "SOVEREIGN_CHAIN_ID must be set"
  else if c.ValAddr = "" then some "VAL_ADDR must be set"
  else if c.RelayerKeyPath = "" then some "RELAYER_KEY_PATH must be set"
  else if c.RelayerBin = "" then some "RELAYER_BIN must be set"
  else none

/-- The startup sequence of `main` up to entering the loop: read the
environment, validate, parse the validator bech32 address
(`parseValAddr` models `sdk.ValAddressFromBech32`); any validation or
parse failure is `log.Fatalf`, i.e. the process exits (`none`). -/
def agentStartup (getenv : String → String)
    (parseDuration : String → Option Nat)
    (parseValAddr : String → Option ValAddress) : Option (Config × ValAddress) :=
  let config := readEnvConfig getenv parseDuration
  match validateConfig config with
  | some _ => none
  | none =>
      match parseValAddr config.ValAddr with
      | none => none
      | some v => some (config, v)

/-- An environment with all six string settings present but HEARTBEAT_PERIOD
absent (Go's `os.Getenv` yields `""`). -/
def envPeriodAbsent : String → String := fun name =>
  if name = "SOVEREIGN_RPC" then "tcp://localhost:26657"
  else if name = "SOVEREIGN_GRPC" then "localhost:9090"
  else if name = "SOVEREIGN_CHAIN_ID" then "sovereign-1"
  else if name = "VAL_ADDR" then "cosmosvaloper1abcdef"
  else if name = "RELAYER_KEY_PATH" then "./relayer_key.pem"
  else if name = "RELAYER_BIN" then "/usr/local/bin/relayer"
  else ""

/-- Counterexample to C3 as stated: with the six string settings present but
the heartbeat period setting absent/malformed (its parse fails), startup
does not exit — it proceeds into the loop with the default 30-second
period, so absence/malformation of the heartbeat period is not a fatal
configuration error. -/
theorem heartbeat_period_default_not_fatal :
    (agentStartup envPeriodAbsent (fun _ => none)
      (fun _ => some [1, 2, 3])).isSome = true ∧
    (readEnvConfig envPeriodAbsent (fun _ => none)).HeartbeatPeriod
      = thirtySeconds := by
  constructor <;> decide

/-- C3 amended: absence of any of the six required string settings (RPC
endpoint, gRPC endpoint, chain id, validator operator address, relayer key
path, relay-executable path) is fatal at startup — validateConfig accepts
exactly when all six are non-empty, and any validation error makes startup
exit; the heartbeat period, by contrast, is not fatal: when its parse
fails the agent proceeds with a default of 30 seconds. -/
theorem config_validation_characterization
    (getenv : String → String) (parseDuration : String → Option Nat)
    (parseValAddr : String → Option ValAddress) :
    (validateConfig (readEnvConfig getenv parseDuration) = none ↔
      (getenv "SOVEREIGN_RPC" ≠ "" ∧ getenv "SOVEREIGN_GRPC" ≠ "" ∧
       getenv "SOVEREIGN_CHAIN_ID" ≠ "" ∧ getenv "VAL_ADDR" ≠ "" ∧
       getenv "RELAYER_KEY_PATH" ≠ "" ∧ getenv "RELAYER_BIN" ≠ "")) ∧
    (validateConfig (readEnvConfig getenv parseDuration) ≠ none →
      agentStartup getenv parseDuration parseValAddr = none) ∧
    (parseDuration (getenv "HEARTBEAT_PERIOD") = none →
      (readEnvConfig getenv parseDuration).HeartbeatPeriod = thirtySeconds) := by
  refine ⟨?_, ?_, ?_⟩
  · simp only [validateConfig, readEnvConfig]
    split_ifs <;> simp_all
  · intro hv
    unfold agentStartup
    cases hval : validateConfig (readEnvConfig getenv parseDuration) with
    | none => exact absurd hval hv
    | some e => simp only [hval]
  · intro hp
    simp [readEnvConfig, hp]

/-- Witness for C3's amended theorem: with every environment variable
absent, validation fails and startup exits. -/
theorem config_validation_characterization_witness :
    agentStartup (fun _ => "") (fun _ => none) (fun _ => some [1]) = none :=
  (config_validation_characterization (fun _ => "") (fun _ => none)
    (fun _ => some [1])).2.1 (by decide)

/-- A JSON value as produced by the message and map encoders: strings,
numbers, byte strings and objects (ordered field lists). -/
inductive Json where
  | str : String → Json
  | num : Nat → Json
  | bytes : List Nat → Json
  | obj : List (String × Json) → Json

/-- Byte-wise comparison of character lists: the order in which Go
compares the strings used as JSON object keys. -/
def charListLe : List Char → List Char → Bool
  | [], _ => true
  | _ :: _, [] => false
  | a :: as, b :: bs =>
      if a.toNat < b.toNat then true
      else if b.toNat < a.toNat then false
      else charListLe as bs

theorem charListLe_cons_iff (a b : Char) (as bs : List Char) :
    charListLe (a :: as) (b :: bs) = true ↔
      (a.toNat < b.toNat ∨ (a.toNat = b.toNat ∧ charListLe as bs = true)) := by
  by_cases h1 : a.toNat < b.toNat
  · simp [charListLe, h1]
  · by_cases h2 : b.toNat < a.toNat
    · have hne : a.toNat ≠ b.toNat := by omega
      simp [charListLe, h1, h2, hne]
    · have he : a.toNat = b.toNat := by omega
      simp [charListLe, h1, h2, he]

theorem charListLe_total : ∀ as bs : List Char,
    charListLe as bs = true ∨ charListLe bs as = true
  | [], _ => Or.inl rfl
  | _ :: _, [] => Or.inr rfl
  | a :: as, b :: bs => by
      rw [charListLe_cons_iff, charListLe_cons_iff]
      rcases charListLe_total as bs with ih | ih
      · rcases Nat.lt_trichotomy a.toNat b.toNat with h | h | h
        · exact Or.inl (Or.inl h)
        · exact Or.inl (Or.inr ⟨h, ih⟩)
        · exact Or.inr (Or.inl h)
      · rcases Nat.lt_trichotomy a.toNat b.toNat with h | h | h
        · exact Or.inl (Or.inl h)
        · exact Or.inr (Or.inr ⟨h.symm, ih⟩)
        · exact Or.inr (Or.inl h)

theorem charListLe_trans : ∀ as bs cs : List Char,
    charListLe as bs = true → charListLe bs cs = true → charListLe as cs = true
  | [], _, _, _, _ => rfl
  | _ :: _, [], _, h1, _ => by simp [charListLe] at h1
  | _ :: _, _ :: _, [], _, h2 => by simp [charListLe] at h2
  | a :: as, b :: bs, c :: cs, h1, h2 => by
      rw [charListLe_cons_iff] at h1 h2 ⊢
      rcases h1 with h1 | ⟨e1, r1⟩
      · rcases h2 with h2 | ⟨e2, r2⟩
        · exact Or.inl (lt_trans h1 h2)
        · exact Or.inl (by omega)
      · rcases h2 with h2 | ⟨e2, r2⟩
        · exact Or.inl (by omega)
        · exact Or.inr ⟨by omega, charListLe_trans as bs cs r1 r2⟩

theorem charListLe_antisymm : ∀ as bs : List Char,
    charListLe as bs = true → charListLe bs as = true → as = bs
  | [], [], _, _ => rfl
  | [], _ :: _, _, h2 => by simp [charListLe] at h2
  | _ :: _, [], h1, _ => by simp [charListLe] at h1
  | a :: as, b :: bs, h1, h2 => by
      rw [charListLe_cons_iff] at h1 h2
      rcases h1 with h1 | ⟨e1, r1⟩
      · rcases h2 with h2 | ⟨e2, r2⟩ <;> omega
      · rcases h2 with h2 | ⟨e2, r2⟩
        · omega
        · have hc : a = b := by
            have : Char.ofNat a.toNat = Char.ofNat b.toNat := by rw [e1]
            rwa [Char.ofNat_toNat, Char.ofNat_toNat] at this
          rw [hc, charListLe_antisymm as bs r1 r2]

/-- Go's byte-wise order on strings (JSON object keys). -/
def strLe (s t : String) : Prop := charListLe s.data t.data = true

instance : DecidableRel strLe := fun s t =>
  inferInstanceAs (Decidable (charListLe s.data t.data = true))

theorem strLe_antisymm {s t : String} (h1 : strLe s t) (h2 : strLe t s) : s = t := by
  cases s with
  | mk ds =>
      cases t with
      | mk dt => exact congrArg String.mk (charListLe_antisymm ds dt h1 h2)

/-- Comparison of object fields by key. -/
def keyLE {α : Type} (p q : String × α) : Prop := strLe p.1 q.1

/-- Strict comparison of object fields: key below and keys distinct. -/
def keyLT {α : Type} (p q : String × α) : Prop := strLe p.1 q.1 ∧ p.1 ≠ q.1

instance {α : Type} : DecidableRel (@keyLE α) := fun p q =>
  inferInstanceAs (Decidable (strLe p.1 q.1))

instance {α : Type} : IsTotal (String × α) keyLE :=
  ⟨fun p q => charListLe_total p.1.data q.1.data⟩

instance {α : Type} : IsTrans (String × α) keyLE :=
  ⟨fun _ _ _ h1 h2 => charListLe_trans _ _ _ h1 h2⟩

instance {α : Type} : IsAntisymm (String × α) keyLT :=
  ⟨fun _ _ h1 h2 => absurd (strLe_antisymm h1.1 h2.1) h1.2⟩

theorem sorted_keyLT_of_nodup_keys {α : Type} (l : List (String × α))
    (hs : List.Sorted keyLE l) (hnd : (l.map Prod.fst).Nodup) :
    List.Sorted keyLT l := by
  have hne : l.Pairwise (fun p q : String × α => p.1 ≠ q.1) :=
    List.pairwise_map.mp hnd
  exact (hs.and hne).imp (fun h => ⟨h.1, h.2⟩)

/-- Sorting by key is canonical: two association lists with the same
duplicate-free key-value pairs (permutations of one another) sort to the
same list. -/
theorem insertionSort_key_eq_of_perm {α : Type} (l1 l2 : List (String × α))
    (hperm : l1.Perm l2) (hnd : (l1.map Prod.fst).Nodup) :
    List.insertionSort keyLE l1 = List.insertionSort keyLE l2 := by
  have hp : (List.insertionSort keyLE l1).Perm (List.insertionSort keyLE l2) :=
    ((List.perm_insertionSort keyLE l1).trans hperm).trans
      (List.perm_insertionSort keyLE l2).symm
  have hnd1 : ((List.insertionSort keyLE l1).map Prod.fst).Nodup :=
    (((List.perm_insertionSort keyLE l1).map Prod.fst).nodup_iff).mpr hnd
  have hnd2 : ((List.insertionSort keyLE l2).map Prod.fst).Nodup :=
    (((List.perm_insertionSort keyLE l2).map Prod.fst).nodup_iff).mpr
      ((hperm.map Prod.fst).nodup_iff.mp hnd)
  exact List.eq_of_perm_of_sorted hp
    (sorted_keyLT_of_nodup_keys _ (List.sorted_insertionSort keyLE l1) hnd1)
    (sorted_keyLT_of_nodup_keys _ (List.sorted_insertionSort keyLE l2) hnd2)

/-- Rendering of a byte string in the JSON output. -/
def renderBytes (b : List Nat) : String :=
  "[" ++ String.intercalate "," (b.map toString) ++ "]"

mutual

/-- Rendering of a JSON value to its byte sequence (a string). -/
def renderJson : Json → String
  | Json.str s => "\"" ++ s ++ "\""
  | Json.num n => toString n
  | Json.bytes b => renderBytes b
  | Json.obj fs => "\x7b" ++ renderFields fs ++ "\x7d"

/-- Rendering of an object's field list, comma-separated. -/
def renderFields : List (String × Json) → String
  | [] => ""
  | [(k, v)] => "\"" ++ k ++ "\":" ++ renderJson v
  | (k, v) :: fs => "\"" ++ k ++ "\":" ++ renderJson v ++ "," ++ renderFields fs

end

mutual

/-- Models `sdk.MustSortJSON`: recursively sort every object's keys,
producing the canonical form of a JSON value. -/
def sortJson : Json → Json
  | Json.str s => Json.str s
  | Json.num n => Json.num n
  | Json.bytes b => Json.bytes b
  | Json.obj fs => Json.obj (List.insertionSort keyLE (sortJsonFields fs))

/-- Recursive canonicalization of each field's value. -/
def sortJsonFields : List (String × Json) → List (String × Json)
  | [] => []
  | (k, v) :: fs => (k, sortJson v) :: sortJsonFields fs

end

theorem sortJsonFields_eq_map (fs : List (String × Json)) :
    sortJsonFields fs = fs.map (fun p => (p.1, sortJson p.2)) := by
  induction fs with
  | nil => rfl
  | cons p fs ih => cases p; simp [sortJsonFields, ih]

theorem sortJsonFields_keys (fs : List (String × Json)) :
    (sortJsonFields fs).map Prod.fst = fs.map Prod.fst := by
  rw [sortJsonFields_eq_map, List.map_map]
  rfl

/-- Canonicalization is invariant under the order in which an encoder
emits an object's fields, provided the keys are duplicate-free. -/
theorem sortJson_obj_perm_invariant (fs1 fs2 : List (String × Json))
    (hperm : fs1.Perm fs2) (hnd : (fs1.map Prod.fst).Nodup) :
    sortJson (Json.obj fs1) = sortJson (Json.obj fs2) := by
  show Json.obj (List.insertionSort keyLE (sortJsonFields fs1))
      = Json.obj (List.insertionSort keyLE (sortJsonFields fs2))
  have hp : (sortJsonFields fs1).Perm (sortJsonFields fs2) := by
    rw [sortJsonFields_eq_map, sortJsonFields_eq_map]
    exact hperm.map _
  have hnd' : ((sortJsonFields fs1).map Prod.fst).Nodup := by
    rw [sortJsonFields_keys]; exact hnd
  rw [insertionSort_key_eq_of_perm _ _ hp hnd']

/-- JSON field list of `MsgRegisterSidecars` as marshalled by the module
codec (keys are the struct's json tags, in struct field order). -/
def MsgRegisterSidecars.jsonFields (m : MsgRegisterSidecars) : List (String × Json) :=
  [("val_addr", Json.bytes m.ValAddr),
   ("relayer_pub_key", Json.bytes m.RelayerPubKey),
   ("validator_pub_key", Json.bytes m.ValidatorPubKey)]

/-- JSON field list of a `Route` value (origin and destination chain ids). -/
def Route.jsonFields (r : Route) : List (String × Json) :=
  [("origin", Json.str r.Origin),
   ("destination", Json.str r.Destination)]

/-- JSON field list of `MsgHeartbeat`. -/
def MsgHeartbeat.jsonFields (m : MsgHeartbeat) : List (String × Json) :=
  [("val_addr", Json.bytes m.ValAddr),
   ("origin_heights_json", Json.str m.OriginHeightsJSON),
   ("sig", Json.bytes m.Sig)]

/-- JSON field list of `MsgReportMissed`. -/
def MsgReportMissed.jsonFields (m : MsgReportMissed) : List (String × Json) :=
  [("route", Json.obj m.Route.jsonFields),
   ("msg_id", Json.num m.MsgID),
   ("assigned_val", Json.bytes m.AssignedVal),
   ("origin_proof", Json.bytes m.OriginProof),
   ("dest_non_inclusion_proof", Json.bytes m.DestNonInclusionProof),
   ("signer", Json.bytes m.Signer)]

/-- JSON field list of `MsgReportInvalid`. -/
def MsgReportInvalid.jsonFields (m : MsgReportInvalid) : List (String × Json) :=
  [("route", Json.obj m.Route.jsonFields),
   ("msg_id", Json.num m.MsgID),
   ("assigned_val", Json.bytes m.AssignedVal),
   ("dest_failure_proof", Json.bytes m.DestFailureProof),
   ("signer", Json.bytes m.Signer)]

/-- `MsgRegisterSidecars.GetSignBytes`:
`sdk.MustSortJSON(ModuleCdc.MustMarshalJSON(msg))`. -/
def MsgRegisterSidecars.GetSignBytes (m : MsgRegisterSidecars) : String :=
  renderJson (sortJson (Json.obj m.jsonFields))

/-- `MsgHeartbeat.GetSignBytes`:
`sdk.MustSortJSON(ModuleCdc.MustMarshalJSON(msg))`. -/
def MsgHeartbeat.GetSignBytes (m : MsgHeartbeat) : String :=
  renderJson (sortJson (Json.obj m.jsonFields))

/-- `MsgReportMissed.GetSignBytes`:
`sdk.MustSortJSON(ModuleCdc.MustMarshalJSON(msg))`. -/
def MsgReportMissed.GetSignBytes (m : MsgReportMissed) : String :=
  renderJson (sortJson (Json.obj m.jsonFields))

/-- `MsgReportInvalid.GetSignBytes`:
`sdk.MustSortJSON(ModuleCdc.MustMarshalJSON(msg))`. -/
def MsgReportInvalid.GetSignBytes (m : MsgReportInvalid) : String :=
  renderJson (sortJson (Json.obj m.jsonFields))

/-- C10: for every one of the four message types, GetSignBytes is
deterministic via sorted-key canonicalization: whatever field order the
JSON encoder emits (any permutation of the marshalled field list),
passing the encoding through the sort produces the same byte sequence,
namely GetSignBytes of the message; hence two invocations on structurally
equal message values produce identical byte sequences. -/
theorem getSignBytes_deterministic_canonicalized :
    (∀ (m : MsgRegisterSidecars) (fs : List (String × Json)),
      fs.Perm m.jsonFields →
        renderJson (sortJson (Json.obj fs)) = m.GetSignBytes) ∧
    (∀ (m : MsgHeartbeat) (fs : List (String × Json)),
      fs.Perm m.jsonFields →
        renderJson (sortJson (Json.obj fs)) = m.GetSignBytes) ∧
    (∀ (m : MsgReportMissed) (fs : List (String × Json)),
      fs.Perm m.jsonFields →
        renderJson (sortJson (Json.obj fs)) = m.GetSignBytes) ∧
    (∀ (m : MsgReportInvalid) (fs : List (String × Json)),
      fs.Perm m.jsonFields →
        renderJson (sortJson (Json.obj fs)) = m.GetSignBytes) := by
  refine ⟨fun m fs hperm => ?_, fun m fs hperm => ?_,
    fun m fs hperm => ?_, fun m fs hperm => ?_⟩ <;>
  · rw [show renderJson (sortJson (Json.obj fs))
        = renderJson (sortJson (Json.obj (m.jsonFields))) from ?_]
    · rfl
    · rw [sortJson_obj_perm_invariant fs m.jsonFields hperm
        ((hperm.map Prod.fst).nodup_iff.mpr (by
          simp only [MsgRegisterSidecars.jsonFields, MsgHeartbeat.jsonFields,
            MsgReportMissed.jsonFields, MsgReportInvalid.jsonFields, List.map]
          decide))]

/-- Witness for C10: a heartbeat message whose first two fields are
emitted in swapped order canonicalizes to its GetSignBytes. -/
theorem getSignBytes_deterministic_canonicalized_witness :
    renderJson (sortJson (Json.obj
      [("origin_heights_json", Json.str "hj"),
       ("val_addr", Json.bytes [1]),
       ("sig", Json.bytes [9])]))
    = MsgHeartbeat.GetSignBytes
        { ValAddr := [1], OriginHeightsJSON := "hj", Sig := [9] } :=
  getSignBytes_deterministic_canonicalized.2.1
    { ValAddr := [1], OriginHeightsJSON := "hj", Sig := [9] }
    _ (List.Perm.swap _ _ _)

/-- The origin-heights map literal built on every tick by `sendHeartbeat`
in agents/duty-agent: a fixed Go map with entries light-1 ↦ 123 and
other-2 ↦ 456 (the source comments that a real implementation would query
these heights from the respective chains). -/
def originHeightsAgent : List (String × Nat) := [("light-1", 123), ("other-2", 456)]

/-- Rendering of one key/height entry of the origin-heights object. -/
def renderNumField (p : String × Nat) : String :=
  "\"" ++ p.1 ++ "\":" ++ toString p.2

/-- Models Go's `encoding/json.Marshal` applied to a `map[string]uint64`:
encoding/json documents that map values encode with their keys in sorted
order, so the object's fields are the map's entries sorted by key. -/
def goJSONMarshalMap (m : List (String × Nat)) : String :=
  "\x7b" ++ String.intercalate "," ((List.insertionSort keyLE m).map renderNumField)
    ++ "\x7d"

/-- The heartbeat-message construction of `sendHeartbeat`, factored over
the origin-heights map value: marshal the map, sign exactly those bytes
with the relayer key (`kr.Sign`, modelled by the abstract signer `sign`;
`none` = signing error), and build the `MsgHeartbeat` carrying the same
serialized string and that signature. -/
def buildHeartbeatMsgWith (originHeights : List (String × Nat))
    (valAddr : ValAddress) (sign : String → Option (List Nat)) :
    Option MsgHeartbeat :=
  match sign (goJSONMarshalMap originHeights) with
  | none => none
  | some sig => some (NewMsgHeartbeat valAddr (goJSONMarshalMap originHeights) sig)

/-- The heartbeat message as actually built by the agent each tick: the
construction applied to the fixed `originHeightsAgent` map. -/
def buildHeartbeatMsg (valAddr : ValAddress) (sign : String → Option (List Nat)) :
    Option MsgHeartbeat :=
  buildHeartbeatMsgWith originHeightsAgent valAddr sign

/-- C6: the signature carried in the built MsgHeartbeat is computed over
the canonical, deterministic serialization of the originHeights mapping:
the serialized object's keys are sorted, the message's signature is the
signer applied to exactly that serialization (which the message also
carries), and two heartbeats built over equal originHeights mappings
(duplicate-free association lists equal up to permutation) are signed
over byte-identical payloads. -/
theorem heartbeat_signed_over_canonical_serialization
    (m1 m2 : List (String × Nat)) (valAddr : ValAddress)
    (sign : String → Option (List Nat))
    (hnd : (m1.map Prod.fst).Nodup) (hperm : m1.Perm m2) :
    goJSONMarshalMap m1 = goJSONMarshalMap m2 ∧
    List.Sorted strLe ((List.insertionSort keyLE m1).map Prod.fst) ∧
    (∀ msg : MsgHeartbeat, buildHeartbeatMsgWith m1 valAddr sign = some msg →
      sign (goJSONMarshalMap m1) = some msg.Sig ∧
      msg.OriginHeightsJSON = goJSONMarshalMap m1) ∧
    buildHeartbeatMsgWith m1 valAddr sign = buildHeartbeatMsgWith m2 valAddr sign := by
  have hmarshal : goJSONMarshalMap m1 = goJSONMarshalMap m2 := by
    unfold goJSONMarshalMap
    rw [insertionSort_key_eq_of_perm m1 m2 hperm hnd]
  refine ⟨hmarshal, ?_, ?_, ?_⟩
  · exact List.Pairwise.map Prod.fst (fun _ _ h => h)
      (List.sorted_insertionSort keyLE m1)
  · intro msg hmsg
    unfold buildHeartbeatMsgWith at hmsg
    cases hsig : sign (goJSONMarshalMap m1) with
    | none => rw [hsig] at hmsg; exact absurd hmsg (by simp)
    | some sig =>
        rw [hsig] at hmsg
        simp only [Option.some.injEq] at hmsg
        rw [← hmsg]
        exact ⟨rfl, rfl⟩
  · unfold buildHeartbeatMsgWith
    rw [hmarshal]

/-- Witness for C6: the agent's fixed two-entry map, in either insertion
order, marshals to the same sorted-key byte sequence. -/
theorem heartbeat_signed_over_canonical_serialization_witness :
    goJSONMarshalMap [("other-2", 456), ("light-1", 123)]
      = goJSONMarshalMap [("light-1", 123), ("other-2", 456)] :=
  (heartbeat_signed_over_canonical_serialization
    [("other-2", 456), ("light-1", 123)] [("light-1", 123), ("other-2", 456)]
    [1] (fun _ => some [7]) (by decide) (List.Perm.swap _ _ _)).1

/-- C7 evaluation: the origin heights the agent signs and submits are a
fixed constant — every heartbeat message the agent builds carries the
byte sequence of the map light-1 ↦ 123, other-2 ↦ 456, whatever the
tick, the configured validator or the signer, so the submitted heights
are not the heights observed at that tick. -/
theorem heartbeat_heights_fixed_constant
    (valAddr : ValAddress) (sign : String → Option (List Nat))
    (msg : MsgHeartbeat) (h : buildHeartbeatMsg valAddr sign = some msg) :
    msg.OriginHeightsJSON = "\x7b\"light-1\":123,\"other-2\":456\x7d" := by
  unfold buildHeartbeatMsg buildHeartbeatMsgWith at h
  cases hsig : sign (goJSONMarshalMap originHeightsAgent) with
  | none => rw [hsig] at h; exact absurd h (by simp)
  | some sig =>
      rw [hsig] at h
      simp only [Option.some.injEq] at h
      rw [← h]
      show goJSONMarshalMap originHeightsAgent
        = "\x7b\"light-1\":123,\"other-2\":456\x7d"
      decide

/-- Witness for C7's evaluation theorem at a concrete signer. -/
theorem heartbeat_heights_fixed_constant_witness :
    (NewMsgHeartbeat [1] (goJSONMarshalMap originHeightsAgent) [7]).OriginHeightsJSON
      = "\x7b\"light-1\":123,\"other-2\":456\x7d" :=
  heartbeat_heights_fixed_constant [1] (fun _ => some [7])
    (NewMsgHeartbeat [1] (goJSONMarshalMap originHeightsAgent) [7]) rfl

/-- Observable external actions of the agent process. -/
inductive AgentAction where
  | logLine : String → AgentAction
  | printStdout : String → AgentAction
  | createRPCClient : String → AgentAction
  | broadcastTx : String → AgentAction
deriving DecidableEq, Repr

/-- Results of the external calls made by `sendHeartbeat`, in source
order; a `false`/`none` field means that call returns an error. -/
structure SendEnv where
  keyringNewOk : Bool
  readKeyFile : Option String
  importOk : Bool
  keyOk : Bool
  sign : String → Option (List Nat)
  buildOk : Bool
  txSignOk : Bool
  txJSONEncode : MsgHeartbeat → Option String
  rpcClientOk : Bool
  txEncode : MsgHeartbeat → Option String
  broadcastOk : Bool

/-- `sendHeartbeat` from the duty agent: build the fixed origin-heights
map, marshal it, import the relayer key into an in-memory keyring, sign
the marshalled bytes, build and sign the transaction carrying the
`MsgHeartbeat`, and JSON-encode it; under `--dry-run` print the
transaction JSON and return nil without touching the network; otherwise
create the RPC client, encode and broadcast. Returns the emitted actions
and the function's error result. -/
def sendHeartbeat (config : Config) (valAddr : ValAddress) (dryRun : Bool)
    (env : SendEnv) : List AgentAction × Except String Unit :=
  let acts := [AgentAction.logLine "Building heartbeat transaction..."]
  if ¬ env.keyringNewOk then (acts, Except.error "failed to create keyring")
  else match env.readKeyFile with
  | none => (acts, Except.error "failed to read relayer key")
  | some _ =>
    if ¬ env.importOk then (acts, Except.error "failed to import private key")
    else if ¬ env.keyOk then (acts, Except.error "failed to get key from keyring")
    else match buildHeartbeatMsg valAddr env.sign with
    | none => (acts, Except.error "failed to sign heartbeat data")
    | some msg =>
      if ¬ env.buildOk then (acts, Except.error "failed to build unsigned tx")
      else if ¬ env.txSignOk then (acts, Except.error "failed to sign tx")
      else match env.txJSONEncode msg with
      | none => (acts, Except.error "failed to encode tx to JSON")
      | some txJSON =>
        if dryRun then
          (acts ++ [AgentAction.logLine "Dry run enabled. Transaction JSON:",
            AgentAction.printStdout txJSON], Except.ok ())
        else
          let acts2 := acts ++ [AgentAction.createRPCClient config.SovereignRPC]
          if ¬ env.rpcClientOk then
            (acts2, Except.error "failed to create RPC client")
          else match env.txEncode msg with
          | none => (acts2, Except.error "failed to encode tx to bytes")
          | some txBytes =>
            let acts3 := acts2 ++ [AgentAction.broadcastTx txBytes]
            if ¬ env.broadcastOk then (acts3, Except.error "broadcast failed")
            else (acts3 ++ [AgentAction.logLine "Heartbeat sent successfully!"],
              Except.ok ())

/-- C2: under `--dry-run`, `sendHeartbeat` never creates an RPC client and
never broadcasts — whatever the outcomes of the external calls; and
whenever the keyring, key-import, signing, transaction build and JSON
encode steps all succeed, it prints the transaction JSON to standard
output and returns nil. -/
theorem dry_run_prints_and_never_broadcasts
    (config : Config) (valAddr : ValAddress) (env : SendEnv) :
    (∀ s, AgentAction.broadcastTx s ∉ (sendHeartbeat config valAddr true env).1) ∧
    (∀ e, AgentAction.createRPCClient e ∉ (sendHeartbeat config valAddr true env).1) ∧
    (∀ (keyData : String) (sig : List Nat) (txJSON : String),
      env.keyringNewOk = true → env.readKeyFile = some keyData →
      env.importOk = true → env.keyOk = true →
      env.sign (goJSONMarshalMap originHeightsAgent) = some sig →
      env.buildOk = true → env.txSignOk = true →
      env.txJSONEncode
        (NewMsgHeartbeat valAddr (goJSONMarshalMap originHeightsAgent) sig)
          = some txJSON →
      AgentAction.printStdout txJSON ∈ (sendHeartbeat config valAddr true env).1 ∧
      (sendHeartbeat config valAddr true env).2 = Except.ok ()) := by
  refine ⟨fun s => ?_, fun e => ?_,
    fun keyData sig txJSON hkr hrf him hk hsig hb hts henc => ?_⟩
  case refine_3 =>
    have hmsg : buildHeartbeatMsg valAddr env.sign
        = some (NewMsgHeartbeat valAddr (goJSONMarshalMap originHeightsAgent) sig) := by
      unfold buildHeartbeatMsg buildHeartbeatMsgWith
      rw [hsig]
    constructor <;> simp [sendHeartbeat, hkr, hrf, him, hk, hmsg, hb, hts, henc]
  all_goals
    unfold sendHeartbeat
    split
    · simp
    · split
      · simp
      · split
        · simp
        · split
          · simp
          · split
            · simp
            · split
              · simp
              · split
                · simp
                · split
                  · simp
                  · simp

/-- A sample agent configuration used by witnesses. -/
def configSample : Config :=
  { SovereignRPC := "tcp://localhost:26657", SovereignGRPC := "localhost:9090",
    SovereignChainID := "sovereign-1", ValAddr := "cosmosvaloper1abcdef",
    RelayerKeyPath := "./relayer_key.pem", RelayerBin := "/usr/local/bin/relayer",
    HeartbeatPeriod := thirtySeconds }

/-- An external-call environment in which every call succeeds. -/
def envAllOk : SendEnv :=
  { keyringNewOk := true, readKeyFile := some "armored-key", importOk := true,
    keyOk := true, sign := fun _ => some [7], buildOk := true, txSignOk := true,
    txJSONEncode := fun _ => some "txjson", rpcClientOk := true,
    txEncode := fun _ => some "txbytes", broadcastOk := true }

/-- Witness for C2: with every external call succeeding, the dry-run
heartbeat prints the transaction JSON and returns nil. -/
theorem dry_run_prints_and_never_broadcasts_witness :
    AgentAction.printStdout "txjson"
        ∈ (sendHeartbeat configSample [1] true envAllOk).1 ∧
    (sendHeartbeat configSample [1] true envAllOk).2 = Except.ok () :=
  (dry_run_prints_and_never_broadcasts configSample [1] envAllOk).2.2
    "armored-key" [7] "txjson" rfl rfl rfl rfl rfl rfl rfl rfl

/-- Whether the process keeps running after a loop iteration. -/
inductive LoopCtl where
  | continueLoop
  | exitProcess
deriving DecidableEq, Repr

/-- One iteration of the agent's main loop body (`for range ticker.C`):
log the tick, log the assignment query (the duty-query and
relay-execution blocks are commented out in the source), call
`sendHeartbeat`, and on error log it with `log.Printf` — not
`log.Fatalf` — then fall through to the next tick. -/
def agentTick (config : Config) (valAddr : ValAddress) (dryRun : Bool)
    (env : SendEnv) : List AgentAction × LoopCtl :=
  let acts :=
    [AgentAction.logLine "Ticker event: checking for duties and sending heartbeat...",
     AgentAction.logLine "Querying for duty assignments..."]
  match sendHeartbeat config valAddr dryRun env with
  | (hbActs, Except.ok _) => (acts ++ hbActs, LoopCtl.continueLoop)
  | (hbActs, Except.error e) =>
      (acts ++ hbActs ++ [AgentAction.logLine ("Error sending heartbeat: " ++ e)],
        LoopCtl.continueLoop)

/-- The agent's main loop over a sequence of ticks, each tick with its own
external-call outcomes; the loop stops only if an iteration exits the
process. -/
def agentLoop (config : Config) (valAddr : ValAddress) (dryRun : Bool) :
    List SendEnv → List AgentAction
  | [] => []
  | env :: rest =>
      match agentTick config valAddr dryRun env with
      | (acts, LoopCtl.continueLoop) => acts ++ agentLoop config valAddr dryRun rest
      | (acts, LoopCtl.exitProcess) => acts

/-- C8: a failing heartbeat submission is logged and abandoned for the
tick without terminating the process — every iteration ends in
`continueLoop` (for any external outcomes, error or not), the error text
is logged on the erroring tick, and the loop always proceeds to process
the remaining ticks. -/
theorem heartbeat_error_never_crashes_loop
    (config : Config) (valAddr : ValAddress) (dryRun : Bool) (env : SendEnv)
    (envs : List SendEnv) (e : String)
    (herr : (sendHeartbeat config valAddr dryRun env).2 = Except.error e) :
    (∀ env' : SendEnv, (agentTick config valAddr dryRun env').2
      = LoopCtl.continueLoop) ∧
    AgentAction.logLine ("Error sending heartbeat: " ++ e)
      ∈ (agentTick config valAddr dryRun env).1 ∧
    (∀ env' : SendEnv,
      agentLoop config valAddr dryRun (env' :: envs)
        = (agentTick config valAddr dryRun env').1
            ++ agentLoop config valAddr dryRun envs) := by
  have hctl : ∀ env' : SendEnv,
      (agentTick config valAddr dryRun env').2 = LoopCtl.continueLoop := by
    intro env'
    unfold agentTick
    rcases hs : sendHeartbeat config valAddr dryRun env' with ⟨hbActs, res⟩
    cases res <;> simp
  refine ⟨hctl, ?_, ?_⟩
  · unfold agentTick
    rcases hs : sendHeartbeat config valAddr dryRun env with ⟨hbActs, res⟩
    rw [hs] at herr
    cases res with
    | error e' =>
        simp only at herr
        cases herr
        simp
    | ok _ => simp at herr
  · intro env'
    rcases ht : agentTick config valAddr dryRun env' with ⟨acts, ctl⟩
    have hc := hctl env'
    rw [ht] at hc
    simp only at hc
    subst hc
    simp [agentLoop, ht]

/-- Witness for C8: with the keyring-creation call failing, the tick logs
the error and the loop continues. -/
theorem heartbeat_error_never_crashes_loop_witness :
    (agentTick configSample [1] false
      { envAllOk with keyringNewOk := false }).2 = LoopCtl.continueLoop ∧
    AgentAction.logLine ("Error sending heartbeat: " ++ "failed to create keyring")
      ∈ (agentTick configSample [1] false
          { envAllOk with keyringNewOk := false }).1 :=
  ⟨(heartbeat_error_never_crashes_loop configSample [1] false
      { envAllOk with keyringNewOk := false } [] "failed to create keyring" rfl).1 _,
   (heartbeat_error_never_crashes_loop configSample [1] false
      { envAllOk with keyringNewOk := false } [] "failed to create keyring" rfl).2.1⟩

end SovereignInterchain
